import Mathlib

/-!
Verification of the streaming-event normalizer of the repository: the two
SSE chunk adapters `parseStreamingChunk` (Converse-style, in
`src/frontend/src/services/strandsParser.js`, and LangGraph-style, in the
unnamed sibling parser file).  The JavaScript source is shallowly embedded:
JSON values are an inductive type, `JSON.parse` is an executable decoder,
JavaScript property access / optional chaining / truthiness / string
coercion are explicit functions, and statements that may throw run in an
explicit exception monad (`Except Unit`).  The update callback is modelled
by its observable behaviour: a function `String → Bool` telling, for each
argument, whether the callback throws; the list of arguments it was
actually invoked with during a call is returned alongside the result.
-/

/-- JSON values, as produced by a successful `JSON.parse`. -/
inductive Json where
  | null : Json
  | bool : Bool → Json
  | num : Int → Json
  | str : String → Json
  | arr : List Json → Json
  | obj : List (String × Json) → Json

/-- Whitespace characters removed by JavaScript `String.prototype.trim`
(the forms that can realistically occur in an SSE line). -/
def jsWsChar (c : Char) : Bool :=
  c = ' ' || c = '\t' || c = '\n' || c = '\r' || c = '\x0b' || c = '\x0c'

/-- Drop leading whitespace from a character list. -/
def trimLeadChars : List Char → List Char
  | [] => []
  | c :: rest => if jsWsChar c then trimLeadChars rest else c :: rest

/-- JavaScript `line.trim()`: drop whitespace from both ends. -/
def jsTrim (s : String) : String :=
  String.mk ((trimLeadChars ((trimLeadChars s.data).reverse)).reverse)

/-- Is `p` an initial segment of `cs`?  (Character-list core of
JavaScript `String.prototype.startsWith`.) -/
def leadsWith : List Char → List Char → Bool
  | [], _ => true
  | _ :: _, [] => false
  | p :: ps, c :: cs => p = c && leadsWith ps cs

/-- JavaScript `s.startsWith(p)`. -/
def startsWithData (s p : String) : Bool :=
  leadsWith p.data s.data

/-- JavaScript `s.substring(n)` (for the all-ASCII prefixes used here,
code-unit and character counting agree). -/
def dropChars (s : String) (n : Nat) : String :=
  String.mk (s.data.drop n)

/-- JSON-specification whitespace, skipped between tokens by `JSON.parse`. -/
def skipWs : List Char → List Char
  | [] => []
  | c :: rest =>
    if c = ' ' || c = '\t' || c = '\n' || c = '\r' then skipWs rest else c :: rest

/-- Body of a JSON string literal: consume characters up to the closing
quote, handling the common escapes.  Returns the decoded string and the
remaining input, or `none` on malformed input. -/
def parseStrAux : List Char → String → Option (String × List Char)
  | [], _ => none
  | '"' :: rest, acc => some (acc, rest)
  | '\\' :: e :: rest, acc =>
    if e = '"' then parseStrAux rest (acc.push '"')
    else if e = '\\' then parseStrAux rest (acc.push '\\')
    else if e = '/' then parseStrAux rest (acc.push '/')
    else if e = 'n' then parseStrAux rest (acc.push '\n')
    else if e = 't' then parseStrAux rest (acc.push '\t')
    else if e = 'r' then parseStrAux rest (acc.push '\r')
    else if e = 'b' then parseStrAux rest (acc.push (Char.ofNat 8))
    else if e = 'f' then parseStrAux rest (acc.push (Char.ofNat 12))
    else none
  | ['\\'], _ => none
  | c :: rest, acc => parseStrAux rest (acc.push c)

/-- Leading decimal digits of the input, and the remaining input. -/
def parseDigits : List Char → List Char × List Char
  | [] => ([], [])
  | c :: rest =>
    if c.isDigit then
      match parseDigits rest with
      | (ds, r) => (c :: ds, r)
    else ([], c :: rest)

/-- Numeric value of a list of decimal digits. -/
def digitsToNat : List Char → Nat
  | [] => 0
  | d :: ds => digitsToNat ds + d.toNat.sub 48 * 10 ^ ds.length

mutual

/-- Recursive-descent JSON value decoder (fuel-bounded).  Decodes one JSON
value from the input and returns it with the remaining input. -/
def parseVal : Nat → List Char → Option (Json × List Char)
  | 0, _ => none
  | fuel + 1, cs =>
    match skipWs cs with
    | [] => none
    | 'n' :: 'u' :: 'l' :: 'l' :: rest => some (Json.null, rest)
    | 't' :: 'r' :: 'u' :: 'e' :: rest => some (Json.bool true, rest)
    | 'f' :: 'a' :: 'l' :: 's' :: 'e' :: rest => some (Json.bool false, rest)
    | '"' :: rest =>
      match parseStrAux rest "" with
      | some (s, r) => some (Json.str s, r)
      | none => none
    | '[' :: rest =>
      match skipWs rest with
      | ']' :: r2 => some (Json.arr [], r2)
      | r1 => parseElems fuel r1 []
    | '{' :: rest =>
      match skipWs rest with
      | '}' :: r2 => some (Json.obj [], r2)
      | r1 => parseMembers fuel r1 []
    | '-' :: rest =>
      match parseDigits rest with
      | ([], _) => none
      | (ds, r) => some (Json.num (-(digitsToNat ds : Int)), r)
    | c :: rest =>
      if c.isDigit then
        match parseDigits (c :: rest) with
        | (ds, r) => some (Json.num (digitsToNat ds), r)
      else none

/-- One or more comma-separated array elements followed by `]`. -/
def parseElems : Nat → List Char → List Json → Option (Json × List Char)
  | 0, _, _ => none
  | fuel + 1, cs, acc =>
    match parseVal fuel cs with
    | none => none
    | some (v, rest) =>
      match skipWs rest with
      | ',' :: r2 => parseElems fuel r2 (v :: acc)
      | ']' :: r2 => some (Json.arr (v :: acc).reverse, r2)
      | _ => none

/-- One or more comma-separated object members followed by `\x7d`. -/
def parseMembers : Nat → List Char → List (String × Json) → Option (Json × List Char)
  | 0, _, _ => none
  | fuel + 1, cs, acc =>
    match skipWs cs with
    | '"' :: rest =>
      match parseStrAux rest "" with
      | none => none
      | some (k, r1) =>
        match skipWs r1 with
        | ':' :: r2 =>
          match parseVal fuel r2 with
          | none => none
          | some (v, r3) =>
            match skipWs r3 with
            | ',' :: r4 => parseMembers fuel r4 ((k, v) :: acc)
            | '}' :: r4 => some (Json.obj ((k, v) :: acc).reverse, r4)
            | _ => none
        | _ => none
    | _ => none

end

/-- JavaScript `JSON.parse`: decode the whole string as one JSON value,
`none` when the string is not valid JSON (in the source this raises a
`SyntaxError`, absorbed by the enclosing `try`). -/
def jsonParse (s : String) : Option Json :=
  match parseVal (2 * s.data.length + 2) s.data with
  | some (j, rest) => if skipWs rest = [] then some j else none
  | none => none

/-- Value of key `k` in a JSON object member list: the LAST binding wins,
as in `JSON.parse` duplicate-key semantics. -/
def lookupLast : List (String × Json) → String → Option Json
  | [], _ => none
  | (k, v) :: rest, key =>
    match lookupLast rest key with
    | some r => some r
    | none => if k = key then some v else none

/-- JavaScript property access `j.k`: throws a `TypeError` on `null`,
yields the member on objects, and `undefined` (here `none`) on every
other value (primitives are boxed and have no such own property). -/
def jsGetField : Json → String → Except Unit (Option Json)
  | Json.null, _ => Except.error ()
  | Json.obj fields, k => Except.ok (lookupLast fields k)
  | _, _ => Except.ok none

/-- Optional-chaining step `v?.k`: short-circuits to `undefined` when the
previous step produced `undefined` or `null`, otherwise accesses `k`. -/
def optGet (v : Except Unit (Option Json)) (k : String) : Except Unit (Option Json) :=
  match v with
  | Except.error e => Except.error e
  | Except.ok none => Except.ok none
  | Except.ok (some Json.null) => Except.ok none
  | Except.ok (some j) => jsGetField j k

/-- The source expression `json.event?.messageStart?.role`. -/
def roleChain (json : Json) : Except Unit (Option Json) :=
  optGet (optGet (jsGetField json "event") "messageStart") "role"

/-- The source expression `json.event?.contentBlockDelta?.delta?.text`. -/
def textChain (json : Json) : Except Unit (Option Json) :=
  optGet (optGet (optGet (jsGetField json "event") "contentBlockDelta") "delta") "text"

/-- JavaScript truthiness of a JSON value (arrays and objects are always
truthy, even when empty). -/
def jsTruthy : Json → Bool
  | Json.null => false
  | Json.bool b => b
  | Json.num n => decide (n ≠ 0)
  | Json.str s => decide (s ≠ "")
  | Json.arr _ => true
  | Json.obj _ => true

/-- Truthiness of a possibly-`undefined` value. -/
def jsTruthyOpt : Option Json → Bool
  | none => false
  | some j => jsTruthy j

/-- Strict equality `v === "lit"` against a string literal. -/
def isStrVal : Option Json → String → Bool
  | some (Json.str t), s => t = s
  | _, _ => false

mutual

/-- JavaScript `ToString` coercion of a JSON value, as performed by string
concatenation `+` (objects print `[object Object]`, arrays join their
elements with commas, `null` prints `null`). -/
def jsToString : Json → String
  | Json.null => "null"
  | Json.bool true => "true"
  | Json.bool false => "false"
  | Json.num n => toString n
  | Json.str s => s
  | Json.arr xs => jsArrToString xs
  | Json.obj _ => "[object Object]"

/-- `Array.prototype.toString`: elements coerced and joined with `,`;
`null` elements coerce to the empty string. -/
def jsArrToString : List Json → String
  | [] => ""
  | [Json.null] => ""
  | [x] => jsToString x
  | Json.null :: y :: rest => "," ++ jsArrToString (y :: rest)
  | x :: y :: rest => jsToString x ++ "," ++ jsArrToString (y :: rest)

end

/-- Coercion used when the truthy `delta.text` value is appended to the
buffer by `currentCompletion + json.event.contentBlockDelta.delta.text`
(`undefined` would coerce to the literal string `undefined`). -/
def jsValToAppend : Option Json → String
  | none => "undefined"
  | some j => jsToString j

/-- Converse-style adapter, body of the `try` block after a successful
`JSON.parse` (source `strandsParser.js`, lines 50-71): the `messageStart`
boundary branch, then the `contentBlockDelta` delta branch, with callback
invocations recorded and callback exceptions propagated. -/
def converseBody (json : Json) (cur : String) (cb : String → Bool) :
    Except Unit String × List String :=
  match roleChain json with
  | Except.error e => (Except.error e, [])
  | Except.ok roleV =>
    if isStrVal roleV "assistant" then
      if cur = "" then (Except.ok cur, [])
      else
        if cb (cur ++ "\n\n") then (Except.error (), [cur ++ "\n\n"])
        else (Except.ok (cur ++ "\n\n"), [cur ++ "\n\n"])
    else
      match textChain json with
      | Except.error e => (Except.error e, [])
      | Except.ok tv =>
        if jsTruthyOpt tv then
          if cb (cur ++ jsValToAppend tv) then (Except.error (), [cur ++ jsValToAppend tv])
          else (Except.ok (cur ++ jsValToAppend tv), [cur ++ jsValToAppend tv])
        else (Except.ok cur, [])

/-- The LangGraph-style filter `content.filter(b => b.type === 'text' && b.text)`,
with the possible `TypeError` from accessing a property of a `null`
element propagated. -/
def filterTextBlocks : List Json → Except Unit (List Json)
  | [] => Except.ok []
  | b :: rest =>
    match jsGetField b "type" with
    | Except.error e => Except.error e
    | Except.ok tv =>
      if isStrVal tv "text" then
        match jsGetField b "text" with
        | Except.error e => Except.error e
        | Except.ok xv =>
          if jsTruthyOpt xv then
            match filterTextBlocks rest with
            | Except.error e => Except.error e
            | Except.ok ks => Except.ok (b :: ks)
          else filterTextBlocks rest
      else filterTextBlocks rest

/-- The LangGraph-style projection `.map(b => b.text)`. -/
def mapTexts : List Json → Except Unit (List (Option Json))
  | [] => Except.ok []
  | b :: rest =>
    match jsGetField b "text" with
    | Except.error e => Except.error e
    | Except.ok xv =>
      match mapTexts rest with
      | Except.error e => Except.error e
      | Except.ok xs => Except.ok (xv :: xs)

/-- Coercion of one element under `Array.prototype.join`: `null` and
`undefined` become the empty string. -/
def joinElem : Option Json → String
  | none => ""
  | some Json.null => ""
  | some j => jsToString j

/-- The LangGraph-style concatenation `.join('')`. -/
def joinTexts : List (Option Json) → String
  | [] => ""
  | x :: rest => joinElem x ++ joinTexts rest

/-- LangGraph-style adapter, body of the `try` block after a successful
`JSON.parse` (unnamed parser source, lines 50-78): the `AIMessageChunk`
guard, the empty-`content` boundary branch, and the filter/map/join text
extraction, with callback invocations recorded and exceptions propagated. -/
def langGraphBody (json : Json) (cur : String) (cb : String → Bool) :
    Except Unit String × List String :=
  match jsGetField json "type" with
  | Except.error e => (Except.error e, [])
  | Except.ok tv =>
    if isStrVal tv "AIMessageChunk" then
      match jsGetField json "content" with
      | Except.error e => (Except.error e, [])
      | Except.ok cv =>
        match cv with
        | some (Json.arr blocks) =>
          if blocks.isEmpty then
            if cur = "" then (Except.ok cur, [])
            else
              if cb (cur ++ "\n\n") then (Except.error (), [cur ++ "\n\n"])
              else (Except.ok (cur ++ "\n\n"), [cur ++ "\n\n"])
          else
            match filterTextBlocks blocks with
            | Except.error e => (Except.error e, [])
            | Except.ok kept =>
              match mapTexts kept with
              | Except.error e => (Except.error e, [])
              | Except.ok texts =>
                if joinTexts texts = "" then (Except.ok cur, [])
                else
                  if cb (cur ++ joinTexts texts) then (Except.error (), [cur ++ joinTexts texts])
                  else (Except.ok (cur ++ joinTexts texts), [cur ++ joinTexts texts])
        | _ => (Except.ok cur, [])
    else (Except.ok cur, [])

/-- Shared line-level policy of both adapters (source lines 29-47 of each
file): skip empty/whitespace lines, require the `data: ` SSE marker, strip
it and trim, skip empty payloads, then `JSON.parse` inside `try`; the
`catch` clause absorbs any exception (from the decoder, property access on
`null`, or the callback) and returns `currentCompletion`.  The returned
first component is the function result (always `Except.ok` — the subject
of claim C1); the second component lists the callback invocations. -/
def parseChunkWith (body : Json → String → (String → Bool) → Except Unit String × List String)
    (line cur : String) (cb : String → Bool) : Except Unit String × List String :=
  if line = "" ∨ jsTrim line = "" then (Except.ok cur, [])
  else if !startsWithData line "data: " then (Except.ok cur, [])
  else
    if jsTrim (dropChars line 6) = "" then (Except.ok cur, [])
    else
      match
        (match jsonParse (jsTrim (dropChars line 6)) with
         | none => (Except.error (), [])
         | some json => body json cur cb) with
      | (Except.ok s, calls) => (Except.ok s, calls)
      | (Except.error _, calls) => (Except.ok cur, calls)

/-- `parseStreamingChunk` of `src/frontend/src/services/strandsParser.js`
(Converse-style adapter). -/
def Converse.parseStreamingChunk (line cur : String) (cb : String → Bool) :
    Except Unit String × List String :=
  parseChunkWith converseBody line cur cb

/-- `parseStreamingChunk` of the LangGraph-style parser source file. -/
def LangGraph.parseStreamingChunk (line cur : String) (cb : String → Bool) :
    Except Unit String × List String :=
  parseChunkWith langGraphBody line cur cb

/-- A callback that never throws. -/
def cbOk : String → Bool := fun _ => false

/-- A callback that always throws. -/
def cbThrow : String → Bool := fun _ => true

/-- Total variant of property access, defined for non-`null` values
(where access cannot throw): the member on objects, `undefined`
elsewhere. -/
def fieldOf (j : Json) (k : String) : Option Json :=
  match j with
  | Json.obj fields => lookupLast fields k
  | _ => none

/-- Is this JSON value `null`? -/
def isNullB : Json → Bool
  | Json.null => true
  | _ => false

/-- Does the LangGraph-style filter keep this content block?
(`block.type === 'text' && block.text`, for non-`null` blocks.) -/
def keepBlock (b : Json) : Bool :=
  isStrVal (fieldOf b "type") "text" && jsTruthyOpt (fieldOf b "text")

/-- The text the LangGraph-style filter/map/join pipeline extracts from a
content array with no `null` blocks: the `text` values of the kept
blocks, coerced and concatenated in array order with no separator. -/
def textConcat : List Json → String
  | [] => ""
  | b :: rest =>
    if keepBlock b then joinElem (fieldOf b "text") ++ textConcat rest
    else textConcat rest

/-! ## Structural lemmas -/

/-- Every run of the Converse-style `try` body either leaves the buffer
unchanged with no callback, throws with no callback, or appends a suffix
`t` and invokes the callback once with `cur ++ t` (throwing afterwards
exactly when the callback throws on that argument).  The branch taken and
the appended suffix do not depend on the callback. -/
theorem converseBody_shape (json : Json) (cur : String) :
    (∀ cb, converseBody json cur cb = (Except.ok cur, [])) ∨
    (∃ e, ∀ cb, converseBody json cur cb = (Except.error e, [])) ∨
    (∃ t, ∀ cb, converseBody json cur cb =
      (if cb (cur ++ t) then (Except.error (), [cur ++ t])
       else (Except.ok (cur ++ t), [cur ++ t]))) := by
  unfold converseBody
  cases hr : roleChain json with
  | error e => exact Or.inr (Or.inl ⟨e, fun cb => by simp [hr]⟩)
  | ok roleV =>
    cases hA : isStrVal roleV "assistant" with
    | true =>
      by_cases hc : cur = ""
      · exact Or.inl fun cb => by simp [hr, hA, hc]
      · exact Or.inr (Or.inr ⟨"\n\n", fun cb => by simp [hr, hA, hc]⟩)
    | false =>
      cases ht : textChain json with
      | error e => exact Or.inr (Or.inl ⟨e, fun cb => by simp [hr, hA, ht]⟩)
      | ok tv =>
        cases htr : jsTruthyOpt tv with
        | true => exact Or.inr (Or.inr ⟨jsValToAppend tv, fun cb => by simp [hr, hA, ht, htr]⟩)
        | false => exact Or.inl fun cb => by simp [hr, hA, ht, htr]

/-- Every run of the LangGraph-style `try` body either leaves the buffer
unchanged with no callback, throws with no callback, or appends a suffix
`t` and invokes the callback once with `cur ++ t`.  The branch taken and
the appended suffix do not depend on the callback. -/
theorem langGraphBody_shape (json : Json) (cur : String) :
    (∀ cb, langGraphBody json cur cb = (Except.ok cur, [])) ∨
    (∃ e, ∀ cb, langGraphBody json cur cb = (Except.error e, [])) ∨
    (∃ t, ∀ cb, langGraphBody json cur cb =
      (if cb (cur ++ t) then (Except.error (), [cur ++ t])
       else (Except.ok (cur ++ t), [cur ++ t]))) := by
  unfold langGraphBody
  cases htv : jsGetField json "type" with
  | error e => exact Or.inr (Or.inl ⟨e, fun cb => by simp [htv]⟩)
  | ok tv =>
    cases hA : isStrVal tv "AIMessageChunk" with
    | false => exact Or.inl fun cb => by simp [htv, hA]
    | true =>
      cases hcv : jsGetField json "content" with
      | error e => exact Or.inr (Or.inl ⟨e, fun cb => by simp [htv, hA, hcv]⟩)
      | ok cv =>
        match cv with
        | none => exact Or.inl fun cb => by simp [htv, hA, hcv]
        | some Json.null => exact Or.inl fun cb => by simp [htv, hA, hcv]
        | some (Json.bool b) => exact Or.inl fun cb => by simp [htv, hA, hcv]
        | some (Json.num n) => exact Or.inl fun cb => by simp [htv, hA, hcv]
        | some (Json.str s) => exact Or.inl fun cb => by simp [htv, hA, hcv]
        | some (Json.obj fs) => exact Or.inl fun cb => by simp [htv, hA, hcv]
        | some (Json.arr blocks) =>
          cases hemp : blocks.isEmpty with
          | true =>
            by_cases hc : cur = ""
            · exact Or.inl fun cb => by simp [htv, hA, hcv, hemp, hc]
            · exact Or.inr (Or.inr ⟨"\n\n", fun cb => by simp [htv, hA, hcv, hemp, hc]⟩)
          | false =>
            cases hf : filterTextBlocks blocks with
            | error e => exact Or.inr (Or.inl ⟨e, fun cb => by simp [htv, hA, hcv, hemp, hf]⟩)
            | ok kept =>
              cases hm : mapTexts kept with
              | error e => exact Or.inr (Or.inl ⟨e, fun cb => by simp [htv, hA, hcv, hemp, hf, hm]⟩)
              | ok texts =>
                by_cases hj : joinTexts texts = ""
                · exact Or.inl fun cb => by simp [htv, hA, hcv, hemp, hf, hm, hj]
                · exact Or.inr (Or.inr ⟨joinTexts texts, fun cb => by
                    simp [htv, hA, hcv, hemp, hf, hm, hj]⟩)

/-- Shape of a whole adapter call: with the `catch` clause applied, every
call either returns the buffer unchanged with no callback, or appends a
suffix `t` and invokes the callback once with `cur ++ t`, returning the
unchanged buffer when the callback throws there. -/
theorem parseChunkWith_shape
    (body : Json → String → (String → Bool) → Except Unit String × List String)
    (hbody : ∀ json c, (∀ cb, body json c cb = (Except.ok c, [])) ∨
      (∃ e, ∀ cb, body json c cb = (Except.error e, [])) ∨
      (∃ t, ∀ cb, body json c cb =
        (if cb (c ++ t) then (Except.error (), [c ++ t])
         else (Except.ok (c ++ t), [c ++ t]))))
    (line cur : String) :
    (∀ cb, parseChunkWith body line cur cb = (Except.ok cur, [])) ∨
    (∃ t, ∀ cb, parseChunkWith body line cur cb =
      (if cb (cur ++ t) then (Except.ok cur, [cur ++ t])
       else (Except.ok (cur ++ t), [cur ++ t]))) := by
  unfold parseChunkWith
  by_cases h1 : line = "" ∨ jsTrim line = ""
  · exact Or.inl fun cb => by simp [h1]
  · cases h2 : startsWithData line "data: " with
    | false => exact Or.inl fun cb => by simp [h1, h2]
    | true =>
      by_cases h3 : jsTrim (dropChars line 6) = ""
      · exact Or.inl fun cb => by simp [h1, h2, h3]
      · cases h4 : jsonParse (jsTrim (dropChars line 6)) with
        | none => exact Or.inl fun cb => by simp [h1, h2, h3, h4]
        | some json =>
          rcases hbody json cur with hb | ⟨e, hb⟩ | ⟨t, hb⟩
          · exact Or.inl fun cb => by simp [h1, h2, h3, h4, hb cb]
          · exact Or.inl fun cb => by simp [h1, h2, h3, h4, hb cb]
          · refine Or.inr ⟨t, fun cb => ?_⟩
            cases hcb : cb (cur ++ t) with
            | true => simp [h1, h2, h3, h4, hb cb, hcb]
            | false => simp [h1, h2, h3, h4, hb cb, hcb]

/-- A call whose line fails any of the preliminary checks, or whose
payload does not decode, returns the buffer unchanged with no callback. -/
theorem parseChunkWith_noop
    (body : Json → String → (String → Bool) → Except Unit String × List String)
    (line cur : String) (cb : String → Bool)
    (h : line = "" ∨ jsTrim line = "" ∨ startsWithData line "data: " = false ∨
      jsTrim (dropChars line 6) = "" ∨ jsonParse (jsTrim (dropChars line 6)) = none) :
    parseChunkWith body line cur cb = (Except.ok cur, []) := by
  unfold parseChunkWith
  rcases h with h | h | h | h | h
  · simp [h]
  · simp [h]
  · by_cases h1 : line = "" ∨ jsTrim line = ""
    · simp [h1]
    · simp [h1, h]
  · by_cases h1 : line = "" ∨ jsTrim line = ""
    · simp [h1]
    · cases h2 : startsWithData line "data: " with
      | false => simp [h1, h2]
      | true => simp [h1, h2, h]
  · by_cases h1 : line = "" ∨ jsTrim line = ""
    · simp [h1]
    · cases h2 : startsWithData line "data: " with
      | false => simp [h1, h2]
      | true =>
        by_cases h3 : jsTrim (dropChars line 6) = ""
        · simp [h1, h2, h3]
        · simp [h1, h2, h3, h]

/-- A call whose line passes the preliminary checks and whose payload
decodes to `json` runs the `try` body on `json` under the `catch` clause. -/
theorem parseChunkWith_reduce
    (body : Json → String → (String → Bool) → Except Unit String × List String)
    (line cur : String) (cb : String → Bool) (json : Json)
    (h1 : jsTrim line ≠ "")
    (h2 : startsWithData line "data: " = true)
    (h3 : jsTrim (dropChars line 6) ≠ "")
    (h4 : jsonParse (jsTrim (dropChars line 6)) = some json) :
    parseChunkWith body line cur cb =
      (match body json cur cb with
       | (Except.ok s, calls) => (Except.ok s, calls)
       | (Except.error _, calls) => (Except.ok cur, calls)) := by
  unfold parseChunkWith
  have hl : ¬(line = "" ∨ jsTrim line = "") := by
    rintro (h | h)
    · exact h1 (by rw [h]; rfl)
    · exact h1 h
  simp [hl, h2, h3, h4]

/-! ## Claim theorems -/

/-- C1: for every string `line`, every string `currentCompletion`, and
every callback (even one that throws), a call to `parseStreamingChunk`
(either the Converse-style or the LangGraph-style adapter) never raises
or propagates an exception to the caller and always returns a string:
the result component is always `Except.ok` of a string. -/
theorem C1_never_raises (line cur : String) (cb : String → Bool) :
    (∃ s, (Converse.parseStreamingChunk line cur cb).fst = Except.ok s) ∧
    (∃ s, (LangGraph.parseStreamingChunk line cur cb).fst = Except.ok s) := by
  constructor
  · rcases parseChunkWith_shape converseBody converseBody_shape line cur with h | ⟨t, h⟩
    · exact ⟨cur, by simp [Converse.parseStreamingChunk, h cb]⟩
    · cases hcb : cb (cur ++ t) with
      | true => exact ⟨cur, by simp [Converse.parseStreamingChunk, h cb, hcb]⟩
      | false => exact ⟨cur ++ t, by simp [Converse.parseStreamingChunk, h cb, hcb]⟩
  · rcases parseChunkWith_shape langGraphBody langGraphBody_shape line cur with h | ⟨t, h⟩
    · exact ⟨cur, by simp [LangGraph.parseStreamingChunk, h cb]⟩
    · cases hcb : cb (cur ++ t) with
      | true => exact ⟨cur, by simp [LangGraph.parseStreamingChunk, h cb, hcb]⟩
      | false => exact ⟨cur ++ t, by simp [LangGraph.parseStreamingChunk, h cb, hcb]⟩

/-- C2: for every string `line`, every string `currentCompletion`, and
every callback, the value returned by `parseStreamingChunk` (either
adapter) has `currentCompletion` as an initial segment: the returned
buffer is `currentCompletion ++ t` for some (possibly empty) suffix `t`,
so the buffer never shrinks and already-emitted characters never change. -/
theorem C2_append_only (line cur : String) (cb : String → Bool) :
    (∃ t, (Converse.parseStreamingChunk line cur cb).fst = Except.ok (cur ++ t)) ∧
    (∃ t, (LangGraph.parseStreamingChunk line cur cb).fst = Except.ok (cur ++ t)) := by
  constructor
  · rcases parseChunkWith_shape converseBody converseBody_shape line cur with h | ⟨t, h⟩
    · exact ⟨"", by simp [Converse.parseStreamingChunk, h cb, String.append_empty]⟩
    · cases hcb : cb (cur ++ t) with
      | true => exact ⟨"", by simp [Converse.parseStreamingChunk, h cb, hcb, String.append_empty]⟩
      | false => exact ⟨t, by simp [Converse.parseStreamingChunk, h cb, hcb]⟩
  · rcases parseChunkWith_shape langGraphBody langGraphBody_shape line cur with h | ⟨t, h⟩
    · exact ⟨"", by simp [LangGraph.parseStreamingChunk, h cb, String.append_empty]⟩
    · cases hcb : cb (cur ++ t) with
      | true => exact ⟨"", by simp [LangGraph.parseStreamingChunk, h cb, hcb, String.append_empty]⟩
      | false => exact ⟨t, by simp [LangGraph.parseStreamingChunk, h cb, hcb]⟩

/-- C4: for every `currentCompletion` and every line that is empty,
whitespace-only, lacks the 6-character `data: ` marker, has an empty
remainder after stripping and trimming, or whose trimmed remainder is not
valid JSON, both adapters return `currentCompletion` unchanged and do not
invoke the callback. -/
theorem C4_malformed_noop (line cur : String) (cb : String → Bool)
    (h : line = "" ∨ jsTrim line = "" ∨ startsWithData line "data: " = false ∨
      jsTrim (dropChars line 6) = "" ∨ jsonParse (jsTrim (dropChars line 6)) = none) :
    Converse.parseStreamingChunk line cur cb = (Except.ok cur, []) ∧
    LangGraph.parseStreamingChunk line cur cb = (Except.ok cur, []) :=
  ⟨parseChunkWith_noop converseBody line cur cb h,
   parseChunkWith_noop langGraphBody line cur cb h⟩

/-- Witness for C4: the line `hello` (no `data: ` marker) with buffer
`abc` is returned unchanged with no callback by both adapters. -/
theorem C4_malformed_noop_witness :
    Converse.parseStreamingChunk "hello" "abc" cbOk = (Except.ok "abc", []) ∧
    LangGraph.parseStreamingChunk "hello" "abc" cbOk = (Except.ok "abc", []) :=
  C4_malformed_noop "hello" "abc" cbOk (Or.inr (Or.inr (Or.inl (by decide))))

/-- Calls discipline of a whole adapter call: at most one callback
invocation per call; when the callback does not throw, every invocation
argument equals the returned buffer, and a changed buffer implies the
callback was invoked exactly once with it. -/
theorem chunk_calls_spec
    (body : Json → String → (String → Bool) → Except Unit String × List String)
    (hbody : ∀ json c, (∀ cb, body json c cb = (Except.ok c, [])) ∨
      (∃ e, ∀ cb, body json c cb = (Except.error e, [])) ∨
      (∃ t, ∀ cb, body json c cb =
        (if cb (c ++ t) then (Except.error (), [c ++ t])
         else (Except.ok (c ++ t), [c ++ t]))))
    (line cur : String) (cb : String → Bool) :
    (parseChunkWith body line cur cb).snd.length ≤ 1 ∧
    ((∀ s, cb s = false) →
      (∀ a, a ∈ (parseChunkWith body line cur cb).snd →
        (parseChunkWith body line cur cb).fst = Except.ok a) ∧
      (∀ r, (parseChunkWith body line cur cb).fst = Except.ok r → r ≠ cur →
        (parseChunkWith body line cur cb).snd = [r])) := by
  rcases parseChunkWith_shape body hbody line cur with h | ⟨t, h⟩
  · rw [h cb]
    refine ⟨by simp, fun hcb => ⟨fun a ha => absurd ha (List.not_mem_nil a), ?_⟩⟩
    intro r hr hne
    exact absurd (Except.ok.inj hr).symm hne
  · constructor
    · rw [h cb]
      cases hcb2 : cb (cur ++ t) <;> simp
    · intro hcb
      have hc := h cb
      rw [hcb (cur ++ t)] at hc
      simp only [if_neg (by simp : ¬(false = true))] at hc
      rw [hc]
      constructor
      · intro a ha
        simp only [List.mem_singleton] at ha
        simp [ha]
      · intro r hr hne
        simp only [Except.ok.injEq] at hr
        simp [hr]

/-- C3 counterexample: on the Converse-style line whose delta text is the
empty JSON array `[]` (truthy in JavaScript, but coercing to the empty
string under `+`), the call invokes the callback once with the unchanged
buffer and returns the buffer unchanged — so the callback is invoked even
though the returned value does not differ from `currentCompletion`,
refuting the claim at this input. -/
theorem C3_counterexample :
    Converse.parseStreamingChunk
      "data: \x7b\"event\":\x7b\"contentBlockDelta\":\x7b\"delta\":\x7b\"text\":[]\x7d\x7d\x7d\x7d"
      "" cbOk = (Except.ok "", [""]) ∧ ([""] : List String) ≠ [] :=
  ⟨by rfl, by decide⟩

/-- C3 amended: each call to `parseStreamingChunk` (either adapter)
invokes `updateCallback` at most once; when the callback does not throw,
every invocation argument equals the returned value (the full new buffer,
not a delta), and whenever the returned value differs from
`currentCompletion` the callback was invoked exactly once with it.  (A
call may additionally invoke the callback once with an argument equal to
`currentCompletion`, when a truthy non-string delta value coerces to the
empty string.) -/
theorem C3_amended (line cur : String) (cb : String → Bool) :
    (Converse.parseStreamingChunk line cur cb).snd.length ≤ 1 ∧
    (LangGraph.parseStreamingChunk line cur cb).snd.length ≤ 1 ∧
    ((∀ s, cb s = false) →
      (∀ a, a ∈ (Converse.parseStreamingChunk line cur cb).snd →
        (Converse.parseStreamingChunk line cur cb).fst = Except.ok a) ∧
      (∀ a, a ∈ (LangGraph.parseStreamingChunk line cur cb).snd →
        (LangGraph.parseStreamingChunk line cur cb).fst = Except.ok a) ∧
      (∀ r, (Converse.parseStreamingChunk line cur cb).fst = Except.ok r → r ≠ cur →
        (Converse.parseStreamingChunk line cur cb).snd = [r]) ∧
      (∀ r, (LangGraph.parseStreamingChunk line cur cb).fst = Except.ok r → r ≠ cur →
        (LangGraph.parseStreamingChunk line cur cb).snd = [r])) := by
  have hC := chunk_calls_spec converseBody converseBody_shape line cur cb
  have hL := chunk_calls_spec langGraphBody langGraphBody_shape line cur cb
  exact ⟨hC.1, hL.1, fun hcb =>
    ⟨(hC.2 hcb).1, (hL.2 hcb).1, (hC.2 hcb).2, (hL.2 hcb).2⟩⟩

/-- Witness for C3 amended: on a Converse-style delta line carrying
`Hello` against the empty buffer with a non-throwing callback, the
callback-invocation list is exactly `[Hello]`. -/
theorem C3_amended_witness :
    (Converse.parseStreamingChunk
      "data: \x7b\"event\":\x7b\"contentBlockDelta\":\x7b\"delta\":\x7b\"text\":\"Hello\"\x7d\x7d\x7d\x7d"
      "" cbOk).snd = ["Hello"] :=
  (((C3_amended
      "data: \x7b\"event\":\x7b\"contentBlockDelta\":\x7b\"delta\":\x7b\"text\":\"Hello\"\x7d\x7d\x7d\x7d"
      "" cbOk).2.2 (fun _ => rfl)).2.2.1) "Hello" (by rfl) (by decide)

/-- C5: for the Converse-style adapter, when the decoded JSON satisfies
`event.messageStart.role == "assistant"`: if `currentCompletion` is
non-empty the call returns it with `\n\n` appended and invokes the
callback once with that value; if it is empty the call returns it
unchanged and does not invoke the callback. -/
theorem C5_converse_boundary (line cur : String) (cb : String → Bool) (json : Json)
    (h1 : jsTrim line ≠ "") (h2 : startsWithData line "data: " = true)
    (h3 : jsTrim (dropChars line 6) ≠ "")
    (h4 : jsonParse (jsTrim (dropChars line 6)) = some json)
    (hrole : roleChain json = Except.ok (some (Json.str "assistant")))
    (hcb : ∀ s, cb s = false) :
    Converse.parseStreamingChunk line cur cb =
      (if cur = "" then (Except.ok cur, ([] : List String))
       else (Except.ok (cur ++ "\n\n"), [cur ++ "\n\n"])) := by
  have hr := parseChunkWith_reduce converseBody line cur cb json h1 h2 h3 h4
  show parseChunkWith converseBody line cur cb = _
  rw [hr]
  unfold converseBody
  rw [hrole]
  by_cases hc : cur = ""
  · simp [isStrVal, hc]
  · simp [isStrVal, hc, hcb]

/-- Witness for C5: the boundary line against the buffer `Hello world`
returns `Hello world\n\n` with one callback invocation carrying it. -/
theorem C5_converse_boundary_witness :
    Converse.parseStreamingChunk
      "data: \x7b\"event\":\x7b\"messageStart\":\x7b\"role\":\"assistant\"\x7d\x7d\x7d"
      "Hello world" cbOk =
      (if ("Hello world" : String) = "" then (Except.ok "Hello world", ([] : List String))
       else (Except.ok ("Hello world" ++ "\n\n"), ["Hello world" ++ "\n\n"])) :=
  C5_converse_boundary
    "data: \x7b\"event\":\x7b\"messageStart\":\x7b\"role\":\"assistant\"\x7d\x7d\x7d"
    "Hello world" cbOk
    (Json.obj [("event", Json.obj [("messageStart", Json.obj [("role", Json.str "assistant")])])])
    (by decide) (by rfl) (by decide) (by rfl) (by rfl) (fun _ => rfl)

/-- C6 counterexample: the claim asserts that a decoded value whose
`event.contentBlockDelta.delta.text` is not a non-empty string leaves the
buffer unchanged with no callback, but on the line whose delta text is
the JSON boolean `true` (truthy) the code appends its string coercion
`true` and invokes the callback — refuting the claim at this input. -/
theorem C6_counterexample :
    Converse.parseStreamingChunk
      "data: \x7b\"event\":\x7b\"contentBlockDelta\":\x7b\"delta\":\x7b\"text\":true\x7d\x7d\x7d\x7d"
      "" cbOk = (Except.ok "true", ["true"]) ∧ ("true" : String) ≠ "" :=
  ⟨by rfl, by decide⟩

/-- C6 amended: for the Converse-style adapter, when the decoded JSON
does not take the `messageStart`-assistant branch and the chain
`event.contentBlockDelta.delta.text` evaluates without fault to a value
`tv`: if `tv` is truthy (any value other than absent, `null`, `false`,
`0`, or the empty string) the call appends the JavaScript string coercion
of `tv` (the string itself when it is a non-empty string) and invokes the
callback once with the result; otherwise the call returns
`currentCompletion` unchanged with no callback. -/
theorem C6_amended (line cur : String) (cb : String → Bool) (json : Json) (rv tv : Option Json)
    (h1 : jsTrim line ≠ "") (h2 : startsWithData line "data: " = true)
    (h3 : jsTrim (dropChars line 6) ≠ "")
    (h4 : jsonParse (jsTrim (dropChars line 6)) = some json)
    (hrole : roleChain json = Except.ok rv)
    (hns : isStrVal rv "assistant" = false)
    (htext : textChain json = Except.ok tv)
    (hcb : ∀ s, cb s = false) :
    Converse.parseStreamingChunk line cur cb =
      (if jsTruthyOpt tv then
        (Except.ok (cur ++ jsValToAppend tv), [cur ++ jsValToAppend tv])
       else (Except.ok cur, ([] : List String))) := by
  have hr := parseChunkWith_reduce converseBody line cur cb json h1 h2 h3 h4
  show parseChunkWith converseBody line cur cb = _
  rw [hr]
  unfold converseBody
  rw [hrole]
  cases htr : jsTruthyOpt tv with
  | true => simp [hns, htext, htr, hcb]
  | false => simp [hns, htext, htr]

/-- Witness for C6 amended: a delta line carrying the non-empty string
`Hi` against the buffer `x` appends it and invokes the callback once. -/
theorem C6_amended_witness :
    Converse.parseStreamingChunk
      "data: \x7b\"event\":\x7b\"contentBlockDelta\":\x7b\"delta\":\x7b\"text\":\"Hi\"\x7d\x7d\x7d\x7d"
      "x" cbOk =
      (if jsTruthyOpt (some (Json.str "Hi")) then
        (Except.ok ("x" ++ jsValToAppend (some (Json.str "Hi"))),
          ["x" ++ jsValToAppend (some (Json.str "Hi"))])
       else (Except.ok "x", ([] : List String))) :=
  C6_amended
    "data: \x7b\"event\":\x7b\"contentBlockDelta\":\x7b\"delta\":\x7b\"text\":\"Hi\"\x7d\x7d\x7d\x7d"
    "x" cbOk
    (Json.obj [("event", Json.obj [("contentBlockDelta",
      Json.obj [("delta", Json.obj [("text", Json.str "Hi")])])])])
    none (some (Json.str "Hi"))
    (by decide) (by rfl) (by decide) (by rfl) (by rfl) (by rfl) (by rfl) (fun _ => rfl)

/-- Property access on a non-`null` value never throws and yields
`fieldOf`. -/
theorem jsGetField_of_not_null (b : Json) (k : String) (h : isNullB b = false) :
    jsGetField b k = Except.ok (fieldOf b k) := by
  cases b <;> simp_all [jsGetField, fieldOf, isNullB]

/-- On a content array with no `null` blocks the LangGraph-style
filter/map/join pipeline runs without fault and computes `textConcat`. -/
theorem pipeline_ok (blocks : List Json) (h : ∀ b ∈ blocks, isNullB b = false) :
    ∃ kept texts, filterTextBlocks blocks = Except.ok kept ∧
      mapTexts kept = Except.ok texts ∧ joinTexts texts = textConcat blocks := by
  induction blocks with
  | nil => exact ⟨[], [], rfl, rfl, rfl⟩
  | cons b rest ih =>
    have hb : isNullB b = false := h b (List.mem_cons_self b rest)
    obtain ⟨kept, texts, hf, hm, hj⟩ := ih (fun x hx => h x (List.mem_cons_of_mem b hx))
    cases hty : isStrVal (fieldOf b "type") "text" with
    | false =>
      refine ⟨kept, texts, ?_, hm, ?_⟩
      · simp only [filterTextBlocks]
        rw [jsGetField_of_not_null b "type" hb]
        simp [hty, hf]
      · rw [hj]
        simp only [textConcat, keepBlock, hty]
        simp
    | true =>
      cases htr : jsTruthyOpt (fieldOf b "text") with
      | false =>
        refine ⟨kept, texts, ?_, hm, ?_⟩
        · simp only [filterTextBlocks]
          rw [jsGetField_of_not_null b "type" hb, jsGetField_of_not_null b "text" hb]
          simp [hty, htr, hf]
        · rw [hj]
          simp only [textConcat, keepBlock, hty, htr]
          simp
      | true =>
        refine ⟨b :: kept, fieldOf b "text" :: texts, ?_, ?_, ?_⟩
        · simp only [filterTextBlocks]
          rw [jsGetField_of_not_null b "type" hb, jsGetField_of_not_null b "text" hb]
          simp [hty, htr, hf]
        · simp only [mapTexts]
          rw [jsGetField_of_not_null b "text" hb, hm]
        · simp only [joinTexts]
          rw [hj]
          simp only [textConcat, keepBlock, hty, htr]
          simp

/-- C7 counterexample: the claim asserts the non-text blocks of a
non-empty content array are dropped and the text of the remaining blocks
is appended, but on a content array whose first element is JSON `null`
the filter predicate's property access `block.type` throws a `TypeError`
that the `catch` absorbs: the buffer stays unchanged and the callback is
never invoked, instead of the text block's `hi` being appended. -/
theorem C7_counterexample :
    LangGraph.parseStreamingChunk
      "data: \x7b\"type\":\"AIMessageChunk\",\"content\":[null,\x7b\"type\":\"text\",\"text\":\"hi\"\x7d]\x7d"
      "" cbOk = (Except.ok "", []) ∧
    (LangGraph.parseStreamingChunk
      "data: \x7b\"type\":\"AIMessageChunk\",\"content\":[null,\x7b\"type\":\"text\",\"text\":\"hi\"\x7d]\x7d"
      "" cbOk).snd ≠ ["hi"] :=
  ⟨by rfl, by decide⟩

/-- C7 amended: for the LangGraph-style adapter, when the decoded JSON
has `type == "AIMessageChunk"` and `content` a non-empty array all of
whose elements are non-`null`, the call keeps exactly the blocks whose
`type == "text"` and whose `text` is truthy (non-text blocks such as
`tool_use` blocks are dropped, as are blocks whose `text` is absent,
`null`, `false`, `0`, or the empty string), concatenates their coerced
`text` values in array order with no separator, and, if the concatenation
is non-empty, returns `currentCompletion` with it appended and invokes
the callback once with that value; if the concatenation is empty the
buffer is unchanged and no callback occurs.  (A `null` element instead
faults the filter; the fault is absorbed and the buffer is unchanged.) -/
theorem C7_amended (line cur : String) (cb : String → Bool) (json : Json) (blocks : List Json)
    (h1 : jsTrim line ≠ "") (h2 : startsWithData line "data: " = true)
    (h3 : jsTrim (dropChars line 6) ≠ "")
    (h4 : jsonParse (jsTrim (dropChars line 6)) = some json)
    (htype : jsGetField json "type" = Except.ok (some (Json.str "AIMessageChunk")))
    (hcontent : jsGetField json "content" = Except.ok (some (Json.arr blocks)))
    (hne : blocks ≠ [])
    (hnn : ∀ b ∈ blocks, isNullB b = false)
    (hcb : ∀ s, cb s = false) :
    LangGraph.parseStreamingChunk line cur cb =
      (if textConcat blocks = "" then (Except.ok cur, ([] : List String))
       else (Except.ok (cur ++ textConcat blocks), [cur ++ textConcat blocks])) := by
  have hr := parseChunkWith_reduce langGraphBody line cur cb json h1 h2 h3 h4
  show parseChunkWith langGraphBody line cur cb = _
  rw [hr]
  unfold langGraphBody
  have hemp : blocks.isEmpty = false := by
    cases blocks with
    | nil => exact absurd rfl hne
    | cons x xs => rfl
  obtain ⟨kept, texts, hf, hm, hj⟩ := pipeline_ok blocks hnn
  by_cases htc : textConcat blocks = ""
  · simp [htype, hcontent, hemp, hf, hm, hj, htc, isStrVal]
  · simp [htype, hcontent, hemp, hf, hm, hj, htc, isStrVal, hcb]

/-- Witness for C7 amended: a content array mixing a `tool_use` block and
a text block carrying `ok` appends only `ok`, with one callback. -/
theorem C7_amended_witness :
    LangGraph.parseStreamingChunk
      "data: \x7b\"type\":\"AIMessageChunk\",\"content\":[\x7b\"type\":\"tool_use\"\x7d,\x7b\"type\":\"text\",\"text\":\"ok\"\x7d]\x7d"
      "" cbOk =
      (if textConcat [Json.obj [("type", Json.str "tool_use")],
          Json.obj [("type", Json.str "text"), ("text", Json.str "ok")]] = "" then
        (Except.ok "", ([] : List String))
       else
        (Except.ok ("" ++ textConcat [Json.obj [("type", Json.str "tool_use")],
            Json.obj [("type", Json.str "text"), ("text", Json.str "ok")]]),
          ["" ++ textConcat [Json.obj [("type", Json.str "tool_use")],
            Json.obj [("type", Json.str "text"), ("text", Json.str "ok")]]])) :=
  C7_amended
    "data: \x7b\"type\":\"AIMessageChunk\",\"content\":[\x7b\"type\":\"tool_use\"\x7d,\x7b\"type\":\"text\",\"text\":\"ok\"\x7d]\x7d"
    "" cbOk
    (Json.obj [("type", Json.str "AIMessageChunk"),
      ("content", Json.arr [Json.obj [("type", Json.str "tool_use")],
        Json.obj [("type", Json.str "text"), ("text", Json.str "ok")]])])
    [Json.obj [("type", Json.str "tool_use")],
      Json.obj [("type", Json.str "text"), ("text", Json.str "ok")]]
    (by decide) (by rfl) (by decide) (by rfl) (by rfl) (by rfl)
    (by simp) (by decide) (fun _ => rfl)

/-- C8 counterexample: on the claim's exact input — blocks
`[{"text":"Hi"},{"text":" there"}]`, which carry no `type` field — the
filter `block.type === 'text'` drops both blocks, so the call returns the
empty buffer unchanged with no callback instead of `Hi there`. -/
theorem C8_counterexample :
    LangGraph.parseStreamingChunk
      "data: \x7b\"type\":\"AIMessageChunk\",\"content\":[\x7b\"text\":\"Hi\"\x7d,\x7b\"text\":\" there\"\x7d]\x7d"
      "" cbOk = (Except.ok "", []) ∧ ("" : String) ≠ "Hi there" :=
  ⟨by rfl, by decide⟩

/-- C8 amended: the same two-block line with `"type":"text"` added to
each block (the shape the parser's own header comment documents) returns
`Hi there` against the empty buffer — the two blocks concatenated with no
inserted separator — and invokes the callback once with that value. -/
theorem C8_amended :
    LangGraph.parseStreamingChunk
      "data: \x7b\"type\":\"AIMessageChunk\",\"content\":[\x7b\"type\":\"text\",\"text\":\"Hi\"\x7d,\x7b\"type\":\"text\",\"text\":\" there\"\x7d]\x7d"
      "" cbOk = (Except.ok "Hi there", ["Hi there"]) := by
  rfl

/-- C9: for every `currentCompletion` and every callback (throwing or
not), a LangGraph-style boundary line (decoded JSON with
`type == "AIMessageChunk"` and `content` an empty array) produces exactly
the same returned value and the same callback invocations as a
Converse-style boundary line (decoded JSON with
`event.messageStart.role == "assistant"`) given the same
`currentCompletion`. -/
theorem C9_boundary_equiv (l1 l2 cur : String) (cb : String → Bool) (j1 j2 : Json)
    (h11 : jsTrim l1 ≠ "") (h12 : startsWithData l1 "data: " = true)
    (h13 : jsTrim (dropChars l1 6) ≠ "")
    (h14 : jsonParse (jsTrim (dropChars l1 6)) = some j1)
    (htype : jsGetField j1 "type" = Except.ok (some (Json.str "AIMessageChunk")))
    (hcontent : jsGetField j1 "content" = Except.ok (some (Json.arr [])))
    (h21 : jsTrim l2 ≠ "") (h22 : startsWithData l2 "data: " = true)
    (h23 : jsTrim (dropChars l2 6) ≠ "")
    (h24 : jsonParse (jsTrim (dropChars l2 6)) = some j2)
    (hrole : roleChain j2 = Except.ok (some (Json.str "assistant"))) :
    LangGraph.parseStreamingChunk l1 cur cb = Converse.parseStreamingChunk l2 cur cb := by
  have hr1 := parseChunkWith_reduce langGraphBody l1 cur cb j1 h11 h12 h13 h14
  have hr2 := parseChunkWith_reduce converseBody l2 cur cb j2 h21 h22 h23 h24
  show parseChunkWith langGraphBody l1 cur cb = parseChunkWith converseBody l2 cur cb
  rw [hr1, hr2]
  unfold langGraphBody converseBody
  rw [htype, hcontent, hrole]
  by_cases hc : cur = ""
  · simp [isStrVal, hc]
  · cases hcb : cb (cur ++ "\n\n") with
    | true => simp [isStrVal, hc, hcb]
    | false => simp [isStrVal, hc, hcb]

/-- Witness for C9: concrete boundary lines of each format against the
buffer `ab` produce identical results. -/
theorem C9_boundary_equiv_witness :
    LangGraph.parseStreamingChunk
      "data: \x7b\"type\":\"AIMessageChunk\",\"content\":[]\x7d" "ab" cbOk =
    Converse.parseStreamingChunk
      "data: \x7b\"event\":\x7b\"messageStart\":\x7b\"role\":\"assistant\"\x7d\x7d\x7d" "ab" cbOk :=
  C9_boundary_equiv
    "data: \x7b\"type\":\"AIMessageChunk\",\"content\":[]\x7d"
    "data: \x7b\"event\":\x7b\"messageStart\":\x7b\"role\":\"assistant\"\x7d\x7d\x7d"
    "ab" cbOk
    (Json.obj [("type", Json.str "AIMessageChunk"), ("content", Json.arr [])])
    (Json.obj [("event", Json.obj [("messageStart", Json.obj [("role", Json.str "assistant")])])])
    (by decide) (by rfl) (by decide) (by rfl) (by rfl) (by rfl)
    (by decide) (by rfl) (by decide) (by rfl) (by rfl)

/-- A call that mutates the buffer under a non-throwing callback will,
under a callback that throws, still invoke the callback once with the
same (strictly larger) value but return the buffer unchanged: the
`try`/`catch` encloses the callback invocation. -/
theorem chunk_throw_spec
    (body : Json → String → (String → Bool) → Except Unit String × List String)
    (hbody : ∀ json c, (∀ cb, body json c cb = (Except.ok c, [])) ∨
      (∃ e, ∀ cb, body json c cb = (Except.error e, [])) ∨
      (∃ t, ∀ cb, body json c cb =
        (if cb (c ++ t) then (Except.error (), [c ++ t])
         else (Except.ok (c ++ t), [c ++ t]))))
    (line cur r : String)
    (hok : (parseChunkWith body line cur cbOk).fst = Except.ok r)
    (hne : r ≠ cur) :
    parseChunkWith body line cur cbThrow = (Except.ok cur, [r]) ∧
    ∃ t, r = cur ++ t ∧ t ≠ "" := by
  rcases parseChunkWith_shape body hbody line cur with h | ⟨t, h⟩
  · rw [h cbOk] at hok
    exact absurd (Except.ok.inj hok).symm hne
  · have h0 := h cbOk
    simp only [cbOk, Bool.false_eq_true, if_false] at h0
    rw [h0] at hok
    have hrt : r = cur ++ t := (Except.ok.inj hok).symm
    refine ⟨?_, t, hrt, ?_⟩
    · rw [h cbThrow]
      simp [cbThrow, hrt]
    · intro ht
      exact hne (by rw [hrt, ht, String.append_empty])

/-- C10: in both adapters the `try`/`catch` encloses the `updateCallback`
invocation itself, so if the callback raises on a call that would mutate
the buffer, the exception is swallowed and the call returns
`currentCompletion` unchanged — even though the callback was already
invoked once with the new, strictly larger buffer value, which the caller
then never receives as a return value. -/
theorem C10_callback_throw (l1 l2 cur rc rl : String)
    (hc : (Converse.parseStreamingChunk l1 cur cbOk).fst = Except.ok rc)
    (hcne : rc ≠ cur)
    (hl : (LangGraph.parseStreamingChunk l2 cur cbOk).fst = Except.ok rl)
    (hlne : rl ≠ cur) :
    Converse.parseStreamingChunk l1 cur cbThrow = (Except.ok cur, [rc]) ∧
    LangGraph.parseStreamingChunk l2 cur cbThrow = (Except.ok cur, [rl]) ∧
    (∃ t, rc = cur ++ t ∧ t ≠ "") ∧ (∃ t, rl = cur ++ t ∧ t ≠ "") :=
  ⟨(chunk_throw_spec converseBody converseBody_shape l1 cur rc hc hcne).1,
   (chunk_throw_spec langGraphBody langGraphBody_shape l2 cur rl hl hlne).1,
   (chunk_throw_spec converseBody converseBody_shape l1 cur rc hc hcne).2,
   (chunk_throw_spec langGraphBody langGraphBody_shape l2 cur rl hl hlne).2⟩

/-- Witness for C10: delta lines of each format that append `Hello` and
`ok` to the empty buffer under a non-throwing callback; under a throwing
callback both adapters return the empty buffer while having invoked the
callback once with the new value. -/
theorem C10_callback_throw_witness :
    Converse.parseStreamingChunk
      "data: \x7b\"event\":\x7b\"contentBlockDelta\":\x7b\"delta\":\x7b\"text\":\"Hello\"\x7d\x7d\x7d\x7d"
      "" cbThrow = (Except.ok "", ["Hello"]) ∧
    LangGraph.parseStreamingChunk
      "data: \x7b\"type\":\"AIMessageChunk\",\"content\":[\x7b\"type\":\"text\",\"text\":\"ok\"\x7d]\x7d"
      "" cbThrow = (Except.ok "", ["ok"]) ∧
    (∃ t, ("Hello" : String) = "" ++ t ∧ t ≠ "") ∧
    (∃ t, ("ok" : String) = "" ++ t ∧ t ≠ "") :=
  C10_callback_throw
    "data: \x7b\"event\":\x7b\"contentBlockDelta\":\x7b\"delta\":\x7b\"text\":\"Hello\"\x7d\x7d\x7d\x7d"
    "data: \x7b\"type\":\"AIMessageChunk\",\"content\":[\x7b\"type\":\"text\",\"text\":\"ok\"\x7d]\x7d"
    "" "Hello" "ok" (by rfl) (by decide) (by rfl) (by decide)
